import Mathlib

/-!
# nim-chat-sdk Go bindings: callback bridge, handle registry and instance lifecycle

Shallow embedding of `library/go-bindings/chatsdk.go` and
`bindings/go-bindings/callbacks.go`.

Conventions of the embedding:

* Pointers (`unsafe.Pointer`, `*C.ChatSDK`) are their address as a `Nat`; `0` is `nil`.
* A `*C.char` is `Option String`: `none` is the null pointer, `some s` points at a
  buffer holding the bytes of `s` followed by the terminator.
* A Go interface value of type `Store` is `Option Store`: `none` is the nil interface.
* A Go `error` is `Option String`: `none` is `nil`, `some m` is `errors.New(m)`.
* A Go call either returns or panics; `Outcome` records which.
* The package-level variables `storeRegistry` and `nextID` are the fields of `Registry`,
  passed explicitly. `nextID` is a `uintptr`: its value is a `Nat` below `2 ^ bits` and
  `nextID++` is computed modulo `2 ^ bits`, where `bits` is the width of `uintptr` on the
  target (32 or 64), a parameter of every definition that reaches the counter.
* The locks (`registryMu`, `sdk.mu`) delimit critical sections; execution is sequential
  here, one call at a time.
* Calls that leave the Go function (native functions of `chatsdk.h`, the registered
  store's methods, cgo allocation, the runtime finalizer) are recorded, in program order,
  in a list of `Event`s returned next to the result.
-/

namespace chatsdk

/-- Result of running a Go call: it returns a value, or it panics and unwinds. -/
inductive Outcome (α : Type) where
  | ret (a : α)
  | fault
  deriving DecidableEq, Repr

/-- The interface `Store` (chatsdk.go:22-25): the two methods an implementation supplies,
as the bridge sees a call to them: the value returned, or a panic. What the implementation
keeps inside is its own business; the bridge holds no invariant on it. -/
structure Store where
  StoreMessage : String → String → Outcome Bool
  GetMessage : String → Outcome String

/-- Calls made by the bridge to code outside the Go function body, in program order. -/
inductive Event where
  | newChatSDKC (userData : Nat)
  | freeChatSDKC (cSDK : Nat)
  | sendMessageSDKC (cSDK : Nat) (id message : String)
  | getMessageSDKC (cSDK : Nat) (id : String)
  | sendMessageCString (message : String)
  | freeCString (s : String)
  | CString (s : String)
  | free (s : String)
  | SetFinalizer (armed : Bool)
  | getStoreFromUserData (userData : Nat)
  | StoreMessage (store : Store) (id message : String)
  | GetMessage (store : Store) (id : String)

/-- The native functions declared in `chatsdk.h`, which is not part of the Go sources:
what each returns for given arguments. -/
structure Native where
  sendMessageCString : String → Int
  sendMessageSDKC : Nat → String → String → Int
  getMessageSDKC : Nat → String → Option String

/-- The struct `ChatSDK` (chatsdk.go:28-33), without its lock. -/
structure ChatSDK where
  cSDK : Nat
  store : Option Store
  closed : Bool

/-- The package-level registry variables (chatsdk.go:36-40). `storeRegistry k = none`
means `k` is not a key of the map; `some v` means the key is present with value `v`, an
interface value that the map type allows to be nil. `nextID` is the `uintptr` counter. -/
structure Registry where
  storeRegistry : Nat → Option (Option Store)
  nextID : Nat

/-- Initial values of the package variables: `make(map[uintptr]Store)` and `nextID = 1`. -/
def Registry.init : Registry :=
  { storeRegistry := fun _ => none, nextID := 1 }

/-- Map assignment `m[k] = v`. -/
def mapSet (m : Nat → Option (Option Store)) (k : Nat) (v : Option Store) :
    Nat → Option (Option Store) :=
  fun j => if j = k then some v else m j

/-- The builtin `delete(m, k)`. -/
def mapDelete (m : Nat → Option (Option Store)) (k : Nat) : Nat → Option (Option Store) :=
  fun j => if j = k then none else m j

/-- Map read `m[k]`: the zero value (nil) when the key is missing. -/
def mapIndex (m : Nat → Option (Option Store)) (k : Nat) : Option Store :=
  match m k with
  | some v => v
  | none => none

/-- The first critical section of `NewChatSDK` (chatsdk.go:62-66): take `nextID` as the
token, increment the counter (`nextID++` on a `uintptr` of width `bits`, so modulo
`2 ^ bits`), insert the store. Returns the token and the new registry. -/
def register (bits : Nat) (r : Registry) (store : Option Store) : Nat × Registry :=
  let storeID := r.nextID
  (storeID, { storeRegistry := mapSet r.storeRegistry storeID store,
              nextID := (r.nextID + 1) % 2 ^ bits })

/-- The second critical section of `NewChatSDK` (chatsdk.go:78-80). -/
def unregister (r : Registry) (storeID : Nat) : Registry :=
  { r with storeRegistry := mapDelete r.storeRegistry storeID }

/-- What `NewChatSDK` hands back: the two return values, the registry afterwards and the
outside calls it made. -/
structure NewResult where
  sdk : Option ChatSDK
  err : Option String
  reg : Registry
  events : List Event

/-- Function `NewChatSDK` (chatsdk.go:56-93). `newChatSDKC` gives the pointer the native
constructor returns for the `userData` it is passed (`0` is null). -/
def NewChatSDK (bits : Nat) (r : Registry) (newChatSDKC : Nat → Nat) (store : Option Store) :
    NewResult :=
  match store with
  | none => { sdk := none, err := some "store cannot be nil", reg := r, events := [] }
  | some _ =>
    let (storeID, r1) := register bits r store
    let userData := storeID
    let cSDK := newChatSDKC userData
    if cSDK = 0 then
      { sdk := none, err := some "failed to create ChatSDK instance",
        reg := unregister r1 storeID, events := [Event.newChatSDKC userData] }
    else
      { sdk := some { cSDK := cSDK, store := store, closed := false }, err := none,
        reg := r1, events := [Event.newChatSDKC userData, Event.SetFinalizer true] }

/-- What a method of `*ChatSDK` hands back: the receiver afterwards, its return values and
the outside calls it made. -/
structure CallResult (α : Type) where
  sdk : ChatSDK
  val : α
  events : List Event

/-- Method `(*ChatSDK).SendMessage` (chatsdk.go:96-115). -/
def ChatSDK.SendMessage (native : Native) (sdk : ChatSDK) (id message : String) :
    CallResult (Option String) :=
  if sdk.closed then
    { sdk := sdk, val := some "ChatSDK instance is closed", events := [] }
  else
    let result := native.sendMessageSDKC sdk.cSDK id message
    let events := [Event.CString id, Event.CString message,
      Event.sendMessageSDKC sdk.cSDK id message, Event.free message, Event.free id]
    if result ≠ 0 then
      { sdk := sdk, val := some "failed to send message", events := events }
    else
      { sdk := sdk, val := none, events := events }

/-- Method `(*ChatSDK).GetMessage` (chatsdk.go:118-137). -/
def ChatSDK.GetMessage (native : Native) (sdk : ChatSDK) (id : String) :
    CallResult (String × Option String) :=
  if sdk.closed then
    { sdk := sdk, val := ("", some "ChatSDK instance is closed"), events := [] }
  else
    match native.getMessageSDKC sdk.cSDK id with
    | none =>
      { sdk := sdk, val := ("", none),
        events := [Event.CString id, Event.getMessageSDKC sdk.cSDK id, Event.free id] }
    | some result =>
      { sdk := sdk, val := (result, none),
        events := [Event.CString id, Event.getMessageSDKC sdk.cSDK id,
          Event.freeCString result, Event.free id] }

/-- Method `(*ChatSDK).Close` (chatsdk.go:140-156). -/
def ChatSDK.Close (sdk : ChatSDK) : CallResult (Option String) :=
  if sdk.closed then
    { sdk := sdk, val := none, events := [] }
  else if sdk.cSDK ≠ 0 then
    { sdk := { sdk with cSDK := 0, closed := true }, val := none,
      events := [Event.freeChatSDKC sdk.cSDK, Event.SetFinalizer false] }
  else
    { sdk := { sdk with closed := true }, val := none, events := [Event.SetFinalizer false] }

/-- The standalone `SendMessage` (chatsdk.go:43-53). -/
def SendMessage (native : Native) (message : String) : Option String × List Event :=
  let events := [Event.CString message, Event.sendMessageCString message, Event.free message]
  if native.sendMessageCString message ≠ 0 then
    (some "failed to send message", events)
  else
    (none, events)

/-- Function `getStoreFromUserData` (chatsdk.go:159-169). -/
def getStoreFromUserData (r : Registry) (userData : Nat) : Option Store :=
  if userData = 0 then
    none
  else
    let storeID := userData
    mapIndex r.storeRegistry storeID

/-- Exported callback `goStoreMessage` (callbacks.go:14-32). Go has no `recover` here, so a
panic of the store's method unwinds out of the function. -/
def goStoreMessage (r : Registry) (cID cMessage : Option String) (userData : Nat) :
    Outcome Int × List Event :=
  match cID, cMessage with
  | some id, some message =>
    match getStoreFromUserData r userData with
    | none => (Outcome.ret 1, [Event.getStoreFromUserData userData])
    | some store =>
      let events := [Event.getStoreFromUserData userData, Event.StoreMessage store id message]
      match store.StoreMessage id message with
      | Outcome.ret success => if success then (Outcome.ret 0, events) else (Outcome.ret 1, events)
      | Outcome.fault => (Outcome.fault, events)
  | _, _ => (Outcome.ret 1, [])

/-- Exported callback `goGetMessage` (callbacks.go:37-56). The result is the returned `*C.char`. -/
def goGetMessage (r : Registry) (cID : Option String) (userData : Nat) :
    Outcome (Option String) × List Event :=
  match cID with
  | none => (Outcome.ret none, [])
  | some id =>
    match getStoreFromUserData r userData with
    | none => (Outcome.ret none, [Event.getStoreFromUserData userData])
    | some store =>
      let events := [Event.getStoreFromUserData userData, Event.GetMessage store id]
      match store.GetMessage id with
      | Outcome.ret message =>
        if message = "" then (Outcome.ret none, events)
        else (Outcome.ret (some message), events ++ [Event.CString message])
      | Outcome.fault => (Outcome.fault, events)

/-- The state of a program using the package: the registry variables, the instances
allocated so far (a `*ChatSDK` is an index into `heap`) and every outside call made. -/
structure Program where
  reg : Registry
  heap : List ChatSDK
  trace : List Event

/-- The program before any call. -/
def Program.init : Program :=
  { reg := Registry.init, heap := [], trace := [] }

/-- A call made by the program: `NewChatSDK(store)`, together with what the native
constructor answers, or `Close()` on the instance at address `p`. -/
inductive Op where
  | new (store : Option Store) (newChatSDKC : Nat → Nat)
  | close (p : Nat)

/-- Run one call. `Close` through an address that `NewChatSDK` never returned does not
arise (instances come only from `NewChatSDK`) and leaves the state as it is. -/
def step (bits : Nat) (p : Program) (op : Op) : Program :=
  match op with
  | Op.new store newChatSDKC =>
    let res := NewChatSDK bits p.reg newChatSDKC store
    { reg := res.reg
      heap := match res.sdk with
        | some sdk => p.heap ++ [sdk]
        | none => p.heap
      trace := p.trace ++ res.events }
  | Op.close i =>
    match p.heap.get? i with
    | some sdk =>
      let res := sdk.Close
      { reg := p.reg, heap := p.heap.set i res.sdk, trace := p.trace ++ res.events }
    | none => p

/-- Run a sequence of calls, left to right. -/
def run (bits : Nat) (p : Program) (ops : List Op) : Program :=
  ops.foldl (step bits) p

/-- The tokens handed to the native constructor as `userData`, oldest first: every token
`NewChatSDK` allocates is passed on in this way. -/
def issued (events : List Event) : List Nat :=
  events.filterMap fun e =>
    match e with
    | Event.newChatSDKC userData => some userData
    | _ => none

/-- The instance one call creates, if any: for a `NewChatSDK` that returns an instance, the
token it passed to the native constructor and the store it was given. -/
def createdBy (bits : Nat) (p : Program) (op : Op) : List (Nat × Store) :=
  match op with
  | Op.new (some s) newChatSDKC =>
    let res := NewChatSDK bits p.reg newChatSDKC (some s)
    match res.sdk, issued res.events with
    | some _, [token] => [(token, s)]
    | _, _ => []
  | _ => []

/-- The instances a sequence of calls creates, oldest first. -/
def created (bits : Nat) (p : Program) : List Op → List (Nat × Store)
  | [] => []
  | op :: ops => createdBy bits p op ++ created bits (step bits p op) ops

/-- Call `Close` on an instance `n` times in a row: the instance afterwards, the error each
call returned and all outside calls made. -/
def closeTimes : Nat → ChatSDK → ChatSDK × List (Option String) × List Event
  | 0, sdk => (sdk, [], [])
  | n + 1, sdk =>
    let res := sdk.Close
    let (sdk2, errs, events) := closeTimes n res.sdk
    (sdk2, res.val :: errs, res.events ++ events)

/-- How many times the native destructor was called. -/
def countFree (events : List Event) : Nat :=
  (events.filter fun e =>
    match e with
    | Event.freeChatSDKC _ => true
    | _ => false).length

/-- The store of the example program (examples/go-app/main.go:12-46) seen at one moment:
`StoreMessage` accepts every message, `GetMessage` answers from the map held at that
moment, the empty string for an id that is not there. -/
def SimpleStore (messages : List (String × String)) : Store :=
  { StoreMessage := fun _ _ => Outcome.ret true
    GetMessage := fun id =>
      match messages.lookup id with
      | some message => Outcome.ret message
      | none => Outcome.ret "" }

/-- A store both of whose methods panic when called. -/
def panickingStore : Store :=
  { StoreMessage := fun _ _ => Outcome.fault
    GetMessage := fun _ => Outcome.fault }

/-- The example store with nothing in it. -/
def emptyStore : Store := SimpleStore []

/-- A `NewChatSDK(emptyStore)` call whose native constructor returns a handle. -/
def okOp : Op := Op.new (some emptyStore) (fun _ => 7)

/-- A `NewChatSDK(emptyStore)` call whose native constructor returns null. -/
def failOp : Op := Op.new (some emptyStore) (fun _ => 0)

/-- One successful construction followed by `n + 2` failing ones. With `n + 3 = 2 ^ bits`
the counter comes back to 1, the token of the instance created first. -/
def wrapOntoLiveKey (n : Nat) : List Op :=
  [okOp] ++ List.replicate n failOp ++ [failOp, failOp]

/-- The invariant of the program states: the counter is one more than the number of tokens
issued, modulo `2 ^ bits`; no key holds a nil store; and while fewer than `2 ^ bits - 1`
tokens have been issued (the counter has not wrapped) the keys and the issued tokens are
numbers from 1 up to the number of tokens issued. -/
def Inv (bits : Nat) (p : Program) : Prop :=
  (1 ≤ bits → p.reg.nextID = ((issued p.trace).length + 1) % 2 ^ bits) ∧
  (∀ k v, p.reg.storeRegistry k = some v → v ≠ none) ∧
  ((issued p.trace).length + 1 < 2 ^ bits →
    (∀ k v, p.reg.storeRegistry k = some v → 1 ≤ k ∧ k ≤ (issued p.trace).length) ∧
    (∀ t ∈ issued p.trace, 1 ≤ t ∧ t ≤ (issued p.trace).length))


/-! ## One call -/

theorem NewChatSDK_nil (bits : Nat) (r : Registry) (f : Nat → Nat) :
    NewChatSDK bits r f none
      = { sdk := none, err := some "store cannot be nil", reg := r, events := [] } := rfl

theorem NewChatSDK_null (bits : Nat) (r : Registry) (f : Nat → Nat) (s : Store)
    (h : f r.nextID = 0) :
    NewChatSDK bits r f (some s)
      = { sdk := none, err := some "failed to create ChatSDK instance",
          reg := unregister (register bits r (some s)).2 r.nextID,
          events := [Event.newChatSDKC r.nextID] } := by
  simp [NewChatSDK, register, h]

theorem NewChatSDK_ok (bits : Nat) (r : Registry) (f : Nat → Nat) (s : Store)
    (h : f r.nextID ≠ 0) :
    NewChatSDK bits r f (some s)
      = { sdk := some { cSDK := f r.nextID, store := some s, closed := false }, err := none,
          reg := (register bits r (some s)).2,
          events := [Event.newChatSDKC r.nextID, Event.SetFinalizer true] } := by
  simp [NewChatSDK, register, h]

theorem issued_append (a b : List Event) : issued (a ++ b) = issued a ++ issued b := by
  simp [issued, List.filterMap_append]

theorem issued_NewChatSDK (bits : Nat) (r : Registry) (f : Nat → Nat) (s : Store) :
    issued (NewChatSDK bits r f (some s)).events = [r.nextID] := by
  by_cases h : f r.nextID = 0
  · simp [NewChatSDK_null bits r f s h, issued]
  · simp [NewChatSDK_ok bits r f s h, issued]

theorem issued_Close (sdk : ChatSDK) : issued sdk.Close.events = [] := by
  simp only [ChatSDK.Close]
  split
  · rfl
  · split <;> rfl

theorem step_reg_new (bits : Nat) (p : Program) (store : Option Store) (f : Nat → Nat) :
    (step bits p (Op.new store f)).reg = (NewChatSDK bits p.reg f store).reg := rfl

theorem step_reg_close (bits : Nat) (p : Program) (i : Nat) :
    (step bits p (Op.close i)).reg = p.reg := by
  simp only [step]
  cases p.heap.get? i <;> rfl

theorem step_trace_close (bits : Nat) (p : Program) (i : Nat) :
    issued (step bits p (Op.close i)).trace = issued p.trace := by
  simp only [step]
  cases p.heap.get? i with
  | none => rfl
  | some sdk => simp [issued_append, issued_Close]

theorem step_new_nil (bits : Nat) (p : Program) (f : Nat → Nat) :
    step bits p (Op.new none f) = p := by
  cases p
  simp [step, NewChatSDK_nil]

/-- What a `NewChatSDK` call with a non-nil store does to the program state: it passes the
token `nextID` to the native constructor, advances the counter modulo `2 ^ bits`, leaves
every other key alone, and leaves the key `nextID` holding the store (native success) or
absent (native failure). -/
theorem step_new_some (bits : Nat) (p : Program) (s : Store) (f : Nat → Nat) :
    issued (step bits p (Op.new (some s) f)).trace = issued p.trace ++ [p.reg.nextID] ∧
    (step bits p (Op.new (some s) f)).reg.nextID = (p.reg.nextID + 1) % 2 ^ bits ∧
    (∀ k, k ≠ p.reg.nextID →
      (step bits p (Op.new (some s) f)).reg.storeRegistry k = p.reg.storeRegistry k) ∧
    ((f p.reg.nextID ≠ 0 ∧
        (step bits p (Op.new (some s) f)).reg.storeRegistry p.reg.nextID = some (some s)) ∨
      (f p.reg.nextID = 0 ∧
        (step bits p (Op.new (some s) f)).reg.storeRegistry p.reg.nextID = none)) := by
  refine ⟨?_, ?_, ?_, ?_⟩
  · simp [step, issued_append, issued_NewChatSDK]
  · rw [step_reg_new]
    by_cases h : f p.reg.nextID = 0
    · simp [NewChatSDK_null bits p.reg f s h, unregister, register]
    · simp [NewChatSDK_ok bits p.reg f s h, register]
  · intro k hk
    rw [step_reg_new]
    by_cases h : f p.reg.nextID = 0
    · simp [NewChatSDK_null bits p.reg f s h, unregister, register, mapDelete, mapSet, hk]
    · simp [NewChatSDK_ok bits p.reg f s h, register, mapSet, hk]
  · rw [step_reg_new]
    by_cases h : f p.reg.nextID = 0
    · right
      simp [NewChatSDK_null bits p.reg f s h, unregister, register, mapDelete, h]
    · left
      simp [NewChatSDK_ok bits p.reg f s h, register, mapSet, h]

/-- Every call leaves the keys other than `nextID` alone. -/
theorem step_other (bits : Nat) (p : Program) (op : Op) (k : Nat) (hk : k ≠ p.reg.nextID) :
    (step bits p op).reg.storeRegistry k = p.reg.storeRegistry k := by
  cases op with
  | close i => rw [step_reg_close]
  | new store f =>
    cases store with
    | none => rw [step_new_nil]
    | some s => exact (step_new_some bits p s f).2.2.1 k hk

theorem step_length_le (bits : Nat) (p : Program) (op : Op) :
    (issued p.trace).length ≤ (issued (step bits p op).trace).length := by
  cases op with
  | close i => rw [step_trace_close]
  | new store f =>
    cases store with
    | none => rw [step_new_nil]
    | some s => rw [(step_new_some bits p s f).1]; simp

theorem run_cons (bits : Nat) (p : Program) (op : Op) (ops : List Op) :
    run bits p (op :: ops) = run bits (step bits p op) ops := rfl

theorem run_append (bits : Nat) (p : Program) (ops ops2 : List Op) :
    run bits p (ops ++ ops2) = run bits (run bits p ops) ops2 := by
  simp [run, List.foldl_append]

theorem run_length_le (bits : Nat) (ops : List Op) : ∀ (p : Program),
    (issued p.trace).length ≤ (issued (run bits p ops).trace).length := by
  induction ops with
  | nil => intro p; exact Nat.le_refl _
  | cons op ops ih => intro p; exact Nat.le_trans (step_length_le bits p op) (ih _)

/-! ## The invariant -/

theorem pos_bits_of_lt (bits n : Nat) (h : n + 1 < 2 ^ bits) : 1 ≤ bits := by
  rcases Nat.eq_zero_or_pos bits with h0 | h0
  · subst h0
    simp at h
  · exact h0

theorem inv_init (bits : Nat) : Inv bits Program.init := by
  refine ⟨?_, ?_, ?_⟩
  · intro hb
    have : 1 < 2 ^ bits := Nat.one_lt_two_pow (by omega)
    simp [Program.init, Registry.init, issued, Nat.mod_eq_of_lt this]
  · intro k v h
    simp [Program.init, Registry.init] at h
  · intro _
    constructor
    · intro k v h
      simp [Program.init, Registry.init] at h
    · intro t ht
      simp [Program.init, issued] at ht

/-- While the counter has not wrapped it equals the number of tokens issued plus one. -/
theorem inv_nextID (bits : Nat) (p : Program) (h : Inv bits p)
    (hb : (issued p.trace).length + 1 < 2 ^ bits) :
    p.reg.nextID = (issued p.trace).length + 1 := by
  rw [h.1 (pos_bits_of_lt bits _ hb), Nat.mod_eq_of_lt hb]

theorem step_inv (bits : Nat) (p : Program) (op : Op) (h : Inv bits p) :
    Inv bits (step bits p op) := by
  cases op with
  | close i =>
    unfold Inv
    rw [step_reg_close, step_trace_close]
    exact h
  | new store f =>
    cases store with
    | none => rw [step_new_nil]; exact h
    | some s =>
      obtain ⟨htr, hnext, hother, hkey⟩ := step_new_some bits p s f
      have hentry : ∀ k v, (step bits p (Op.new (some s) f)).reg.storeRegistry k = some v →
          (k = p.reg.nextID ∧ v = some s) ∨ p.reg.storeRegistry k = some v := by
        intro k v hkv
        by_cases hk : k = p.reg.nextID
        · left
          subst hk
          rcases hkey with ⟨_, h1⟩ | ⟨_, h1⟩
          · rw [h1] at hkv
            exact ⟨rfl, (Option.some.inj hkv).symm⟩
          · rw [h1] at hkv
            cases hkv
        · right
          rw [hother k hk] at hkv
          exact hkv
      refine ⟨?_, ?_, ?_⟩
      · intro hb
        rw [hnext, htr, h.1 hb, Nat.mod_add_mod]
        simp
      · intro k v hkv
        rcases hentry k v hkv with ⟨_, hv⟩ | hold
        · rw [hv]; simp
        · exact h.2.1 k v hold
      · intro hb
        rw [htr] at hb ⊢
        simp only [List.length_append, List.length_singleton] at hb ⊢
        have hb0 : (issued p.trace).length + 1 < 2 ^ bits := by omega
        have hn := inv_nextID bits p h hb0
        obtain ⟨hkeys, htoks⟩ := h.2.2 hb0
        constructor
        · intro k v hkv
          rcases hentry k v hkv with ⟨hk, _⟩ | hold
          · omega
          · have := hkeys k v hold
            omega
        · intro t ht
          rcases List.mem_append.mp ht with ht | ht
          · have := htoks t ht
            omega
          · simp only [List.mem_singleton] at ht
            omega

theorem run_inv (bits : Nat) (ops : List Op) : ∀ (p : Program), Inv bits p →
    Inv bits (run bits p ops) := by
  induction ops with
  | nil => intro p hp; exact hp
  | cons op ops ih => intro p hp; exact ih _ (step_inv bits p op hp)

theorem reachable_inv (bits : Nat) (ops : List Op) : Inv bits (run bits Program.init ops) :=
  run_inv bits ops Program.init (inv_init bits)

/-- While the counter has not wrapped, a call leaves every key up to the number of tokens
issued alone. -/
theorem step_below (bits : Nat) (p : Program) (op : Op) (k : Nat) (h : Inv bits p)
    (hb : (issued p.trace).length + 1 < 2 ^ bits) (hk : k ≤ (issued p.trace).length) :
    (step bits p op).reg.storeRegistry k = p.reg.storeRegistry k := by
  apply step_other
  rw [inv_nextID bits p h hb]
  omega

theorem run_below (bits : Nat) (ops : List Op) : ∀ (p : Program) (k : Nat), Inv bits p →
    (issued (run bits p ops).trace).length + 1 < 2 ^ bits → k ≤ (issued p.trace).length →
    (run bits p ops).reg.storeRegistry k = p.reg.storeRegistry k := by
  induction ops with
  | nil => intro p k _ _ _; rfl
  | cons op ops ih =>
    intro p k h hb hk
    have hle := step_length_le bits p op
    have hle2 := run_length_le bits ops (step bits p op)
    rw [run_cons] at hb ⊢
    rw [ih _ k (step_inv bits p op h) hb (Nat.le_trans hk hle)]
    exact step_below bits p op k h (by omega) hk

theorem lookup_of_entry (r : Registry) (k : Nat) (v : Option Store) (hk : k ≠ 0)
    (h : r.storeRegistry k = some v) : getStoreFromUserData r k = v := by
  simp [getStoreFromUserData, mapIndex, hk, h]

theorem lookup_of_absent (r : Registry) (k : Nat) (h : r.storeRegistry k = none) :
    getStoreFromUserData r k = none := by
  by_cases hk : k = 0
  · simp [getStoreFromUserData, hk]
  · simp [getStoreFromUserData, mapIndex, hk, h]

theorem lookup_null (r : Registry) : getStoreFromUserData r 0 = none := rfl

/-! ## Created instances -/

/-- A `NewChatSDK` whose native constructor answers non-null creates exactly one instance,
under the token `nextID` and with the store it was given. -/
theorem createdBy_new_ok (bits : Nat) (p : Program) (s : Store) (f : Nat → Nat)
    (h : f p.reg.nextID ≠ 0) :
    createdBy bits p (Op.new (some s) f) = [(p.reg.nextID, s)] := by
  simp [createdBy, NewChatSDK_ok bits p.reg f s h, issued]

theorem createdBy_cases (bits : Nat) (p : Program) (op : Op) :
    createdBy bits p op = [] ∨
      ∃ s f, op = Op.new (some s) f ∧ f p.reg.nextID ≠ 0 ∧
        createdBy bits p op = [(p.reg.nextID, s)] := by
  cases op with
  | close i => left; rfl
  | new store f =>
    cases store with
    | none => left; rfl
    | some s =>
      by_cases h : f p.reg.nextID = 0
      · left
        simp [createdBy, NewChatSDK_null bits p.reg f s h]
      · right
        exact ⟨s, f, rfl, h, createdBy_new_ok bits p s f h⟩

theorem created_append (bits : Nat) (ops ops2 : List Op) : ∀ (p : Program),
    created bits p (ops ++ ops2) = created bits p ops ++ created bits (run bits p ops) ops2 := by
  induction ops with
  | nil => intro p; rfl
  | cons op ops ih =>
    intro p
    show createdBy bits p op ++ created bits (step bits p op) (ops ++ ops2)
      = (createdBy bits p op ++ created bits (step bits p op) ops)
          ++ created bits (run bits (step bits p op) ops) ops2
    rw [ih, List.append_assoc]

/-- A run of `NewChatSDK` calls that all succeed creates one instance per call, with the
stores in call order. -/
theorem created_all_ok (bits : Nat) (f : Nat → Nat) (hf : ∀ u, f u ≠ 0)
    (stores : List Store) :
    ∀ (p : Program),
      (created bits p (stores.map fun s => Op.new (some s) f)).map Prod.snd = stores := by
  induction stores with
  | nil => intro p; rfl
  | cons s stores ih =>
    intro p
    simp only [List.map_cons, created, createdBy_new_ok bits p s f (hf _),
      List.singleton_append]
    rw [ih]

theorem created_spec (bits : Nat) (ops : List Op) : ∀ (p : Program), Inv bits p →
    (issued (run bits p ops).trace).length + 1 < 2 ^ bits →
    (∀ t s, (t, s) ∈ created bits p ops →
      (issued p.trace).length < t ∧ t ≤ (issued (run bits p ops).trace).length ∧
        (run bits p ops).reg.storeRegistry t = some (some s)) ∧
    ((created bits p ops).map Prod.fst).Nodup := by
  induction ops with
  | nil => intro p _ _; simp [created]
  | cons op ops ih =>
    intro p hp hb
    rw [run_cons] at hb
    obtain ⟨ih1, ih2⟩ := ih (step bits p op) (step_inv bits p op hp) hb
    have hle := step_length_le bits p op
    have hle2 := run_length_le bits ops (step bits p op)
    rcases createdBy_cases bits p op with h | ⟨s0, f, rfl, hf, h⟩
    · simp only [created, h, List.nil_append, run_cons]
      refine ⟨?_, ih2⟩
      intro t s hts
      obtain ⟨a, b, c⟩ := ih1 t s hts
      exact ⟨by omega, b, c⟩
    · obtain ⟨htr, _, _, hkey⟩ := step_new_some bits p s0 f
      have hlen : (issued (step bits p (Op.new (some s0) f)).trace).length
          = (issued p.trace).length + 1 := by
        rw [htr]; simp
      have hn := inv_nextID bits p hp (by omega)
      have hreg : (step bits p (Op.new (some s0) f)).reg.storeRegistry p.reg.nextID
          = some (some s0) := by
        rcases hkey with ⟨_, h1⟩ | ⟨h0, _⟩
        · exact h1
        · exact absurd h0 hf
      simp only [created, h, List.singleton_append, run_cons, List.map_cons, List.nodup_cons]
      refine ⟨?_, ?_, ih2⟩
      · intro t s hts
        rcases List.mem_cons.mp hts with heq | hts
        · obtain ⟨rfl, rfl⟩ := Prod.mk.inj heq
          refine ⟨by omega, by omega, ?_⟩
          rw [run_below bits ops _ _ (step_inv bits p _ hp) hb (by omega), hreg]
        · obtain ⟨a, b, c⟩ := ih1 t s hts
          exact ⟨by omega, b, c⟩
      · intro hmem
        obtain ⟨⟨t, s⟩, hts, hfst⟩ := List.mem_map.mp hmem
        obtain ⟨a, _, _⟩ := ih1 t s hts
        simp only at hfst
        omega

/-! ## Runs that wrap the counter -/

/-- A run made only of `NewChatSDK` calls with a non-nil store issues one token per call. -/
theorem run_length_new (bits : Nat) (ops : List Op) : ∀ (p : Program),
    (∀ op ∈ ops, ∃ s f, op = Op.new (some s) f) →
    (issued (run bits p ops).trace).length = (issued p.trace).length + ops.length := by
  induction ops with
  | nil => intro p _; rfl
  | cons op ops ih =>
    intro p h
    obtain ⟨s, f, rfl⟩ := h op (List.mem_cons_self _ _)
    rw [run_cons, ih _ (fun o ho => h o (List.mem_cons_of_mem _ ho)),
      (step_new_some bits p s f).1]
    simp
    omega

theorem replicate_new (n : Nat) (s : Store) (f : Nat → Nat) :
    ∀ op ∈ List.replicate n (Op.new (some s) f), ∃ s2 f2, op = Op.new (some s2) f2 := by
  intro op hop
  exact ⟨s, f, (List.mem_replicate.mp hop).2⟩

/-- After `n` constructions the counter is `(n + 1) % 2 ^ bits`. -/
theorem replicate_nextID (bits : Nat) (hbits : 1 ≤ bits) (n : Nat) (s : Store) (f : Nat → Nat) :
    (run bits Program.init (List.replicate n (Op.new (some s) f))).reg.nextID
      = (n + 1) % 2 ^ bits ∧
    (issued (run bits Program.init (List.replicate n (Op.new (some s) f))).trace).length
      = n := by
  have hlen := run_length_new bits (List.replicate n (Op.new (some s) f))
    Program.init (replicate_new _ s f)
  rw [List.length_replicate] at hlen
  have hlen2 : (issued (run bits Program.init
      (List.replicate n (Op.new (some s) f))).trace).length = n := by
    rw [hlen]
    simp [Program.init, issued]
  exact ⟨by rw [(reachable_inv bits _).1 hbits, hlen2], hlen2⟩

/-- If `n` failing constructions bring the counter to 0, one more successful construction
issues token 0 and stores under key 0. -/
theorem key_zero_after (bits : Nat) (hbits : 1 ≤ bits) (n : Nat) (s : Store)
    (hn : (n + 1) % 2 ^ bits = 0) :
    0 ∈ issued (run bits Program.init
      (List.replicate n failOp ++ [Op.new (some s) (fun _ => 7)])).trace ∧
    (run bits Program.init
      (List.replicate n failOp ++ [Op.new (some s) (fun _ => 7)])).reg.storeRegistry 0
      = some (some s) := by
  have hnext : (run bits Program.init (List.replicate n failOp)).reg.nextID = 0 := by
    rw [← hn]
    exact (replicate_nextID bits hbits n emptyStore (fun _ => 0)).1
  have hrun : run bits Program.init (List.replicate n failOp ++ [Op.new (some s) (fun _ => 7)])
      = step bits (run bits Program.init (List.replicate n failOp))
          (Op.new (some s) (fun _ => 7)) := by
    rw [run_append]; rfl
  obtain ⟨htr, _, _, hkey⟩ := step_new_some bits
    (run bits Program.init (List.replicate n failOp)) s (fun _ => 7)
  rw [hnext] at htr hkey
  rw [hrun]
  constructor
  · rw [htr]
    simp
  · rcases hkey with ⟨_, h1⟩ | ⟨h0, _⟩
    · exact h1
    · exact absurd h0 (by decide)

theorem key_zero_after_ok (bits : Nat) (hbits : 1 ≤ bits) (n : Nat)
    (hn : (n + 1) % 2 ^ bits = 0) :
    0 ∈ issued (run bits Program.init (List.replicate n failOp ++ [okOp])).trace ∧
    (run bits Program.init (List.replicate n failOp ++ [okOp])).reg.storeRegistry 0
      = some (some emptyStore) :=
  key_zero_after bits hbits n emptyStore hn

/-- If `n` successful constructions bring the counter to 0, the next successful one
creates an instance under token 0. -/
theorem created_zero_after (bits : Nat) (hbits : 1 ≤ bits) (n : Nat)
    (hn : (n + 1) % 2 ^ bits = 0) :
    (0, emptyStore) ∈ created bits Program.init (List.replicate n okOp ++ [okOp]) := by
  have hnext : (run bits Program.init (List.replicate n okOp)).reg.nextID = 0 := by
    rw [← hn]
    exact (replicate_nextID bits hbits n emptyStore (fun _ => 7)).1
  rw [created_append]
  apply List.mem_append_right
  have hc := createdBy_new_ok bits (run bits Program.init (List.replicate n okOp))
    emptyStore (fun _ => 7) (Nat.succ_ne_zero 6)
  rw [hnext] at hc
  show (0, emptyStore) ∈ createdBy bits _ okOp ++ []
  rw [List.append_nil]
  show (0, emptyStore) ∈ createdBy bits _ (Op.new (some emptyStore) (fun _ => 7))
  rw [hc]
  exact List.mem_singleton.mpr rfl

/-- If `n ≥ 1` failing constructions bring the counter to 0, the token allocated next is
not greater than the tokens already issued. -/
theorem not_greater_after (bits : Nat) (hbits : 1 ≤ bits) (n : Nat) (hpos : 0 < n)
    (hn : (n + 1) % 2 ^ bits = 0) :
    ¬ ∀ t ∈ issued (run bits Program.init (List.replicate n failOp)).trace,
        t < (register bits (run bits Program.init (List.replicate n failOp)).reg
          (some emptyStore)).1 := by
  obtain ⟨hnext, hlen⟩ := replicate_nextID bits hbits n emptyStore (fun _ => 0)
  intro hall
  have hne : issued (run bits Program.init (List.replicate n failOp)).trace ≠ [] := by
    intro hnil
    have hl : (issued (run bits Program.init (List.replicate n failOp)).trace).length = n :=
      hlen
    rw [hnil] at hl
    simp at hl
    omega
  obtain ⟨t, ht⟩ := List.exists_mem_of_ne_nil _ hne
  have hlt := hall t ht
  have htok : (register bits (run bits Program.init (List.replicate n failOp)).reg
      (some emptyStore)).1 = 0 := by
    rw [← hn]
    exact hnext
  rw [htok] at hlt
  exact absurd hlt (Nat.not_lt_zero t)

/-- One successful construction and then `n + 2` failing ones, with `n + 3 = 2 ^ bits`:
the counter is 1 again while key 1 still holds the store of the first instance. -/
theorem live_key_after (bits : Nat) (n : Nat) (hn : n + 3 = 2 ^ bits) :
    (run bits Program.init (wrapOntoLiveKey n)).reg.nextID = 1 ∧
    (run bits Program.init (wrapOntoLiveKey n)).reg.storeRegistry 1
        = some (some emptyStore) := by
  unfold wrapOntoLiveKey
  have hbits : 1 ≤ bits := pos_bits_of_lt bits 1 (by omega)
  have h1 : Inv bits (run bits Program.init [okOp]) := reachable_inv bits _
  have hl1 : (issued (run bits Program.init [okOp]).trace).length = 1 := rfl
  have hk1 : (run bits Program.init [okOp]).reg.storeRegistry 1 = some (some emptyStore) := rfl
  have hl2 : (issued (run bits (run bits Program.init [okOp])
      (List.replicate n failOp)).trace).length = n + 1 := by
    have e := run_length_new bits (List.replicate n failOp) (run bits Program.init [okOp])
      (replicate_new n emptyStore (fun _ => 0))
    rw [e, hl1, List.length_replicate]
    omega
  have h2 : Inv bits (run bits (run bits Program.init [okOp]) (List.replicate n failOp)) :=
    run_inv bits _ _ h1
  have hk2 : (run bits (run bits Program.init [okOp])
      (List.replicate n failOp)).reg.storeRegistry 1 = some (some emptyStore) := by
    rw [run_below bits _ _ 1 h1 (by rw [hl2]; omega) (by rw [hl1]), hk1]
  have h3 := step_inv bits _ failOp h2
  have hl3 : (issued (step bits (run bits (run bits Program.init [okOp])
      (List.replicate n failOp)) failOp).trace).length = n + 2 := by
    show (issued (step bits _ (Op.new (some emptyStore) (fun _ => 0))).trace).length = _
    rw [(step_new_some bits _ emptyStore (fun _ => 0)).1, List.length_append, hl2]
    rfl
  have hk3 : (step bits (run bits (run bits Program.init [okOp])
      (List.replicate n failOp)) failOp).reg.storeRegistry 1 = some (some emptyStore) := by
    rw [step_below bits _ failOp 1 h2 (by rw [hl2]; omega) (by rw [hl2]; omega), hk2]
  have hn3 : (step bits (run bits (run bits Program.init [okOp])
      (List.replicate n failOp)) failOp).reg.nextID = 0 := by
    rw [h3.1 hbits, hl3, hn, Nat.mod_self]
  have h4 := step_inv bits _ failOp h3
  have hl4 : (issued (step bits (step bits (run bits (run bits Program.init [okOp])
      (List.replicate n failOp)) failOp) failOp).trace).length = n + 3 := by
    show (issued (step bits _ (Op.new (some emptyStore) (fun _ => 0))).trace).length = _
    rw [(step_new_some bits _ emptyStore (fun _ => 0)).1, List.length_append, hl3]
    rfl
  have hrun : run bits Program.init ([okOp] ++ List.replicate n failOp ++ [failOp, failOp])
      = step bits (step bits (run bits (run bits Program.init [okOp])
          (List.replicate n failOp)) failOp) failOp := by
    rw [run_append, run_append]
    rfl
  rw [hrun]
  constructor
  · have h2lt : 1 < 2 ^ bits := Nat.one_lt_two_pow (by omega)
    rw [h4.1 hbits, hl4, hn, Nat.add_mod, Nat.mod_self, Nat.zero_add, Nat.mod_mod,
      Nat.mod_eq_of_lt h2lt]
  · rw [step_other bits _ failOp 1 (by rw [hn3]; decide), hk3]

/-- A key other than 0 in a reachable registry state holds a store, and the lookup finds
it. -/
theorem reachable_entry (bits : Nat) (ops : List Op) (k : Nat) (v : Option Store)
    (hk : k ≠ 0) (h : (run bits Program.init ops).reg.storeRegistry k = some v) :
    ∃ store, v = some store ∧
      getStoreFromUserData (run bits Program.init ops).reg k = some store := by
  have c := (reachable_inv bits ops).2.1 k v h
  cases v with
  | none => exact absurd rfl c
  | some store => exact ⟨store, rfl, lookup_of_entry _ k _ hk h⟩

/-- While the counter has not wrapped, 0 is not a key. -/
theorem reachable_no_key_zero (bits : Nat) (ops : List Op)
    (hb : (issued (run bits Program.init ops).trace).length + 1 < 2 ^ bits) :
    (run bits Program.init ops).reg.storeRegistry 0 = none := by
  cases h : (run bits Program.init ops).reg.storeRegistry 0 with
  | none => rfl
  | some v => exact absurd (((reachable_inv bits ops).2.2 hb).1 0 v h).1 (by decide)

/-- With a null token the store-trampoline returns 1 after the lookup alone, whatever the
registry holds. -/
theorem goStoreMessage_null_token (r : Registry) (id message : String) :
    goStoreMessage r (some id) (some message) 0
      = (Outcome.ret 1, [Event.getStoreFromUserData 0]) := rfl

/-- With a null token the get-trampoline returns null after the lookup alone, whatever the
registry holds. -/
theorem goGetMessage_null_token (r : Registry) (id : String) :
    goGetMessage r (some id) 0 = (Outcome.ret none, [Event.getStoreFromUserData 0]) := rfl

/-- A construction that fails natively while `nextID` is a key removes that key. -/
theorem fail_removes_live_key (bits : Nat) (r : Registry) (s : Store) (v : Option Store)
    (h : r.storeRegistry r.nextID = some v) :
    (NewChatSDK bits r (fun _ => 0) (some s)).reg.storeRegistry ≠ r.storeRegistry := by
  intro heq
  have h1 := congrFun heq r.nextID
  rw [NewChatSDK_null bits r (fun _ => 0) s rfl] at h1
  simp [unregister, register, mapDelete, h] at h1

/-! ## Registry claims -/

/-- C1 (evaluated on the code, 64-bit target): after `NewChatSDK` with the example store and
a successful native constructor, followed by `Close` on the instance, the instance is closed
and its native handle released, yet the registry still resolves token 1:
`getStoreFromUserData` returns a store, `goStoreMessage` returns status 0 after calling it
and `goGetMessage` returns the stored message. `Close` never removes the entry. -/
theorem C1_Close_keeps_registry_entry :
    issued (run 64 Program.init
        [Op.new (some (SimpleStore [("m1", "hello")])) (fun _ => 7), Op.close 0]).trace = [1] ∧
    (run 64 Program.init
        [Op.new (some (SimpleStore [("m1", "hello")])) (fun _ => 7), Op.close 0]).heap.map
          (fun sdk => (sdk.cSDK, sdk.closed)) = [(0, true)] ∧
    (getStoreFromUserData (run 64 Program.init
        [Op.new (some (SimpleStore [("m1", "hello")])) (fun _ => 7), Op.close 0]).reg 1).isSome
          = true ∧
    (goStoreMessage (run 64 Program.init
        [Op.new (some (SimpleStore [("m1", "hello")])) (fun _ => 7), Op.close 0]).reg
          (some "m2") (some "x") 1).1 = Outcome.ret 0 ∧
    (goGetMessage (run 64 Program.init
        [Op.new (some (SimpleStore [("m1", "hello")])) (fun _ => 7), Op.close 0]).reg
          (some "m1") 1).1 = Outcome.ret (some "hello") := by
  refine ⟨rfl, rfl, rfl, rfl, ?_⟩
  decide

/-- C2 fails once the counter wraps: on a 64-bit target, after `2 ^ 64 - 1` constructions
(here with a failing native constructor) the token the next `NewChatSDK` allocates is 0,
which is not greater than the tokens issued before. -/
theorem C2_wrapped_token_not_greater :
    ¬ ∀ t ∈ issued (run 64 Program.init (List.replicate (2 ^ 64 - 1) failOp)).trace,
        t < (register 64 (run 64 Program.init (List.replicate (2 ^ 64 - 1) failOp)).reg
          (some emptyStore)).1 :=
  not_greater_after 64 (by decide) (2 ^ 64 - 1) (by decide) (by decide)

/-- C2 as amended: in every registry state reached from the initial one by `NewChatSDK`
and `Close` calls in which fewer than `2 ^ bits - 1` tokens have been issued (the `uintptr`
counter of width `bits` has not wrapped), the token the next `NewChatSDK` allocates (the
one it passes to the native constructor) is strictly greater than every token issued before
and is not a key of `storeRegistry`. -/
theorem C2_next_token_fresh (bits : Nat) (ops : List Op) (s : Store) (newChatSDKC : Nat → Nat)
    (hb : (issued (run bits Program.init ops).trace).length + 1 < 2 ^ bits) :
    issued (NewChatSDK bits (run bits Program.init ops).reg newChatSDKC (some s)).events
      = [(register bits (run bits Program.init ops).reg (some s)).1] ∧
    (∀ t ∈ issued (run bits Program.init ops).trace,
      t < (register bits (run bits Program.init ops).reg (some s)).1) ∧
    (run bits Program.init ops).reg.storeRegistry
      (register bits (run bits Program.init ops).reg (some s)).1 = none := by
  have hinv := reachable_inv bits ops
  have hn := inv_nextID bits _ hinv hb
  obtain ⟨hkeys, htoks⟩ := hinv.2.2 hb
  refine ⟨issued_NewChatSDK _ _ _ _, ?_, ?_⟩
  · intro t ht
    have := (htoks t ht).2
    simp only [register]
    omega
  · simp only [register]
    cases h : (run bits Program.init ops).reg.storeRegistry
        (run bits Program.init ops).reg.nextID with
    | none => rfl
    | some v =>
      have := (hkeys _ v h).2
      omega

/-- Witness for the amended C2: on a 64-bit target, after one construction the next token
is 2, above the issued token 1. -/
theorem C2_next_token_fresh_witness :
    (issued (run 64 Program.init [okOp]).trace).length + 1 < 2 ^ 64 ∧
    1 < (register 64 (run 64 Program.init [okOp]).reg (some emptyStore)).1 :=
  ⟨by decide,
    (C2_next_token_fresh 64 [okOp] emptyStore (fun _ => 7) (by decide)).2.1 1
      (List.Mem.head _)⟩

/-- C3 fails once the counter wraps: on a 64-bit target the `2 ^ 64`-th of a run of
successful constructions gets token 0, and `getStoreFromUserData` on that token returns nil
instead of the store of that instance. -/
theorem C3_wrapped_token_unresolved :
    ¬ ∀ t s, (t, s) ∈ created 64 Program.init (List.replicate (2 ^ 64 - 1) okOp ++ [okOp]) →
        getStoreFromUserData
          (run 64 Program.init (List.replicate (2 ^ 64 - 1) okOp ++ [okOp])).reg t = some s := by
  intro hall
  have hmem := created_zero_after 64 (by decide) (2 ^ 64 - 1) (by decide)
  have h := hall 0 emptyStore hmem
  rw [lookup_null] at h
  cases h

/-- C3 as amended: over any sequence of calls in which fewer than `2 ^ bits - 1` tokens are
issued (the `uintptr` counter of width `bits` does not wrap), the tokens of the instances
created are pairwise distinct, `getStoreFromUserData` on the token of each created instance
returns exactly the store that instance was given, and any further call (closing or
constructing an instance) leaves that lookup unchanged. -/
theorem C3_tokens_isolated (bits : Nat) (ops : List Op)
    (hb : (issued (run bits Program.init ops).trace).length + 1 < 2 ^ bits) :
    ((created bits Program.init ops).map Prod.fst).Nodup ∧
    (∀ t s, (t, s) ∈ created bits Program.init ops →
      getStoreFromUserData (run bits Program.init ops).reg t = some s) ∧
    (∀ t s op, (t, s) ∈ created bits Program.init ops →
      getStoreFromUserData (step bits (run bits Program.init ops) op).reg t
        = getStoreFromUserData (run bits Program.init ops).reg t) := by
  obtain ⟨h1, h2⟩ := created_spec bits ops Program.init (inv_init bits) hb
  have hpos : ∀ t s, (t, s) ∈ created bits Program.init ops → t ≠ 0 := by
    intro t s hts
    have := (h1 t s hts).1
    omega
  refine ⟨h2, ?_, ?_⟩
  · intro t s hts
    exact lookup_of_entry _ t (some s) (hpos t s hts) (h1 t s hts).2.2
  · intro t s op hts
    have hk := step_below bits (run bits Program.init ops) op t (reachable_inv bits ops) hb
      (h1 t s hts).2.1
    simp [getStoreFromUserData, mapIndex, hk]

/-- Witness for the amended C3: on a 64-bit target, two instances with their own stores,
then the first one closed; the second token still resolves to its own store. -/
theorem C3_tokens_isolated_witness :
    (issued (run 64 Program.init
      [Op.new (some (SimpleStore [("m1", "hello")])) (fun _ => 7),
       Op.new (some (SimpleStore [("m1", "world")])) (fun _ => 8),
       Op.close 0]).trace).length + 1 < 2 ^ 64 ∧
    getStoreFromUserData (run 64 Program.init
      [Op.new (some (SimpleStore [("m1", "hello")])) (fun _ => 7),
       Op.new (some (SimpleStore [("m1", "world")])) (fun _ => 8),
       Op.close 0]).reg 2 = some (SimpleStore [("m1", "world")]) :=
  ⟨by decide,
    (C3_tokens_isolated 64
      [Op.new (some (SimpleStore [("m1", "hello")])) (fun _ => 7),
       Op.new (some (SimpleStore [("m1", "world")])) (fun _ => 8),
       Op.close 0] (by decide)).2.1 2 (SimpleStore [("m1", "world")])
      (List.Mem.tail _ (List.Mem.head _))⟩

/-- C10 fails once the counter wraps: on a 64-bit target, after `2 ^ 64 - 1` failing
constructions and one successful one, token 0 has been issued, 0 is a key of
`storeRegistry` (so not every key is at least 1), and the lookup of token 0 is nil although
the key is present. -/
theorem C10_wrapped_key_zero :
    0 ∈ issued (run 64 Program.init (List.replicate (2 ^ 64 - 1) failOp ++ [okOp])).trace ∧
    (¬ ∀ k v, (run 64 Program.init
        (List.replicate (2 ^ 64 - 1) failOp ++ [okOp])).reg.storeRegistry k = some v →
      1 ≤ k ∧
      k < (run 64 Program.init (List.replicate (2 ^ 64 - 1) failOp ++ [okOp])).reg.nextID ∧
      v ≠ none) ∧
    ¬ (getStoreFromUserData
        (run 64 Program.init (List.replicate (2 ^ 64 - 1) failOp ++ [okOp])).reg 0 = none →
      (run 64 Program.init
        (List.replicate (2 ^ 64 - 1) failOp ++ [okOp])).reg.storeRegistry 0 = none) := by
  obtain ⟨hiss, hkey⟩ := key_zero_after_ok 64 (by decide) (2 ^ 64 - 1) (by decide)
  refine ⟨hiss, ?_, ?_⟩
  · intro hall
    exact absurd (hall 0 _ hkey).1 (by decide)
  · intro himp
    have := himp (lookup_null _)
    rw [hkey] at this
    cases this

/-- C10 as amended: in every registry state reached from the initial one in which fewer
than `2 ^ bits - 1` tokens have been issued (the `uintptr` counter of width `bits` has not
wrapped), every key of `storeRegistry` lies in `[1, nextID)` and holds a non-nil store;
token 0 has not been issued and is not allocated next; a null `userData` resolves to nil
and key 0 is not in the map; and a nil lookup result means exactly that the token is not a
key. -/
theorem C10_registry_invariant (bits : Nat) (ops : List Op)
    (hb : (issued (run bits Program.init ops).trace).length + 1 < 2 ^ bits) :
    (∀ k v, (run bits Program.init ops).reg.storeRegistry k = some v →
      1 ≤ k ∧ k < (run bits Program.init ops).reg.nextID ∧ v ≠ none) ∧
    0 ∉ issued (run bits Program.init ops).trace ∧
    (∀ store, (register bits (run bits Program.init ops).reg store).1 ≠ 0) ∧
    getStoreFromUserData (run bits Program.init ops).reg 0 = none ∧
    (run bits Program.init ops).reg.storeRegistry 0 = none ∧
    (∀ t, getStoreFromUserData (run bits Program.init ops).reg t = none ↔
      (run bits Program.init ops).reg.storeRegistry t = none) := by
  have hinv := reachable_inv bits ops
  have hn := inv_nextID bits _ hinv hb
  obtain ⟨hkeys, htoks⟩ := hinv.2.2 hb
  have hall : ∀ k v, (run bits Program.init ops).reg.storeRegistry k = some v →
      1 ≤ k ∧ k < (run bits Program.init ops).reg.nextID ∧ v ≠ none := by
    intro k v h
    have := hkeys k v h
    exact ⟨this.1, by omega, hinv.2.1 k v h⟩
  refine ⟨hall, ?_, ?_, rfl, reachable_no_key_zero bits ops hb, ?_⟩
  · intro h0
    exact absurd (htoks 0 h0).1 (by decide)
  · intro store
    simp only [register]
    omega
  · intro t
    constructor
    · intro hnil
      cases h : (run bits Program.init ops).reg.storeRegistry t with
      | none => rfl
      | some v =>
        obtain ⟨a, _, c⟩ := hall t v h
        have ht : t ≠ 0 := by omega
        rw [lookup_of_entry _ t v ht h] at hnil
        exact absurd hnil c
    · exact lookup_of_absent _ t

/-- Witness for the amended C10: on a 64-bit target, after one successful and one failed
construction, key 1 holds a non-nil store below `nextID`. -/
theorem C10_registry_invariant_witness :
    (issued (run 64 Program.init [okOp, failOp]).trace).length + 1 < 2 ^ 64 ∧
    1 ≤ 1 ∧ 1 < (run 64 Program.init [okOp, failOp]).reg.nextID ∧
    some emptyStore ≠ none :=
  ⟨by decide,
    (C10_registry_invariant 64 [okOp, failOp] (by decide)).1 1 (some emptyStore) rfl⟩

/-! ## Trampolines -/

/-- C4 fails for the null token once the counter wraps: on a 64-bit target, after
`2 ^ 64 - 1` failing constructions and one successful one, token 0 has a registry entry
holding a store that accepts every message, yet `goStoreMessage` with that token returns
status 1 after the lookup alone, without calling the store. -/
theorem C4_null_token_entry_not_called :
    (run 64 Program.init (List.replicate (2 ^ 64 - 1) failOp ++ [okOp])).reg.storeRegistry 0
      = some (some emptyStore) ∧
    emptyStore.StoreMessage "m1" "hello" = Outcome.ret true ∧
    goStoreMessage (run 64 Program.init (List.replicate (2 ^ 64 - 1) failOp ++ [okOp])).reg
        (some "m1") (some "hello") 0
      = (Outcome.ret 1, [Event.getStoreFromUserData 0]) :=
  ⟨(key_zero_after_ok 64 (by decide) (2 ^ 64 - 1) (by decide)).2, rfl,
    goStoreMessage_null_token _ "m1" "hello"⟩

/-- C4 as amended: `goStoreMessage(id, message, token)` in any reachable registry state.
A null id or message gives status 1 with no lookup and no store call. Otherwise, a token
that is null or is not a key gives status 1 after the lookup alone; a non-null token that
is a key holds a store, whose `StoreMessage(id, message)` is called exactly once, and the
status is 0 exactly when that call returned true (1 when it returned false). The null token
is not a key as long as the counter has not wrapped. -/
theorem C4_goStoreMessage_contract (bits : Nat) (ops : List Op) (cID cMessage : Option String)
    (userData : Nat) :
    ((cID = none ∨ cMessage = none) →
      goStoreMessage (run bits Program.init ops).reg cID cMessage userData
        = (Outcome.ret 1, [])) ∧
    (∀ id message, cID = some id → cMessage = some message →
      (((run bits Program.init ops).reg.storeRegistry userData = none ∨ userData = 0) →
        goStoreMessage (run bits Program.init ops).reg cID cMessage userData
          = (Outcome.ret 1, [Event.getStoreFromUserData userData])) ∧
      (∀ v, (run bits Program.init ops).reg.storeRegistry userData = some v → userData ≠ 0 →
        ∃ store, v = some store ∧
          (goStoreMessage (run bits Program.init ops).reg cID cMessage userData).2
            = [Event.getStoreFromUserData userData, Event.StoreMessage store id message] ∧
          ((goStoreMessage (run bits Program.init ops).reg cID cMessage userData).1
              = Outcome.ret 0
            ↔ store.StoreMessage id message = Outcome.ret true) ∧
          (store.StoreMessage id message = Outcome.ret false →
            (goStoreMessage (run bits Program.init ops).reg cID cMessage userData).1
              = Outcome.ret 1))) ∧
    ((issued (run bits Program.init ops).trace).length + 1 < 2 ^ bits →
      (run bits Program.init ops).reg.storeRegistry 0 = none) := by
  refine ⟨?_, ?_, reachable_no_key_zero bits ops⟩
  · intro h
    rcases h with h | h
    · subst h
      cases cMessage <;> rfl
    · subst h
      cases cID <;> rfl
  · intro id message hid hmsg
    subst hid hmsg
    refine ⟨?_, ?_⟩
    · intro habs
      have hlook : getStoreFromUserData (run bits Program.init ops).reg userData = none := by
        rcases habs with habs | habs
        · exact lookup_of_absent _ _ habs
        · rw [habs]; rfl
      simp [goStoreMessage, hlook]
    · intro v hv hne
      obtain ⟨store, rfl, hlook⟩ := reachable_entry bits ops userData v hne hv
      refine ⟨store, rfl, ?_⟩
      simp only [goStoreMessage, hlook]
      cases hcall : store.StoreMessage id message with
      | fault => simp
      | ret b => cases b <;> simp

/-- Witness for the amended C4: on a 64-bit target, the example store registered under
token 1 accepts the message, so the status is 0. -/
theorem C4_goStoreMessage_contract_witness :
    ∃ store, some emptyStore = some store ∧
      (goStoreMessage (run 64 Program.init [okOp]).reg (some "m1") (some "hello") 1).2
        = [Event.getStoreFromUserData 1, Event.StoreMessage store "m1" "hello"] ∧
      ((goStoreMessage (run 64 Program.init [okOp]).reg (some "m1") (some "hello") 1).1
          = Outcome.ret 0
        ↔ store.StoreMessage "m1" "hello" = Outcome.ret true) ∧
      (store.StoreMessage "m1" "hello" = Outcome.ret false →
        (goStoreMessage (run 64 Program.init [okOp]).reg (some "m1") (some "hello") 1).1
          = Outcome.ret 1) :=
  ((C4_goStoreMessage_contract 64 [okOp] (some "m1") (some "hello") 1).2.1
      "m1" "hello" rfl rfl).2 (some emptyStore) rfl (by decide)

/-- C5 fails for the null token once the counter wraps: on a 64-bit target, after
`2 ^ 64 - 1` failing constructions and one successful one, token 0 has a registry entry
holding a store that answers "hello" for "m1", yet `goGetMessage` with that token returns
null after the lookup alone. -/
theorem C5_null_token_entry_not_called :
    (run 64 Program.init (List.replicate (2 ^ 64 - 1) failOp ++
        [Op.new (some (SimpleStore [("m1", "hello")])) (fun _ => 7)])).reg.storeRegistry 0
      = some (some (SimpleStore [("m1", "hello")])) ∧
    (SimpleStore [("m1", "hello")]).GetMessage "m1" = Outcome.ret "hello" ∧
    goGetMessage (run 64 Program.init (List.replicate (2 ^ 64 - 1) failOp ++
        [Op.new (some (SimpleStore [("m1", "hello")])) (fun _ => 7)])).reg (some "m1") 0
      = (Outcome.ret none, [Event.getStoreFromUserData 0]) :=
  ⟨(key_zero_after 64 (by decide) (2 ^ 64 - 1) (SimpleStore [("m1", "hello")])
      (by decide)).2, by decide, goGetMessage_null_token _ "m1"⟩

/-- C5 as amended: `goGetMessage(id, token)` in any reachable registry state. The result
is null for a null id (no lookup), for a token that is null or is not a key, and when the
registered store's `GetMessage(id)` returns the empty string; for a non-null token that is
a key whose store returns a non-empty message the result is a freshly allocated C string
holding that message. The null token is not a key as long as the counter has not
wrapped. -/
theorem C5_goGetMessage_contract (bits : Nat) (ops : List Op) (cID : Option String)
    (userData : Nat) :
    (cID = none →
      goGetMessage (run bits Program.init ops).reg cID userData = (Outcome.ret none, [])) ∧
    (∀ id, cID = some id →
      (((run bits Program.init ops).reg.storeRegistry userData = none ∨ userData = 0) →
        goGetMessage (run bits Program.init ops).reg cID userData
          = (Outcome.ret none, [Event.getStoreFromUserData userData])) ∧
      (∀ v, (run bits Program.init ops).reg.storeRegistry userData = some v → userData ≠ 0 →
        ∃ store, v = some store ∧
          (store.GetMessage id = Outcome.ret "" →
            goGetMessage (run bits Program.init ops).reg cID userData
              = (Outcome.ret none,
                  [Event.getStoreFromUserData userData, Event.GetMessage store id])) ∧
          (∀ message, store.GetMessage id = Outcome.ret message → message ≠ "" →
            goGetMessage (run bits Program.init ops).reg cID userData
              = (Outcome.ret (some message),
                  [Event.getStoreFromUserData userData, Event.GetMessage store id,
                   Event.CString message])))) ∧
    ((issued (run bits Program.init ops).trace).length + 1 < 2 ^ bits →
      (run bits Program.init ops).reg.storeRegistry 0 = none) := by
  refine ⟨?_, ?_, reachable_no_key_zero bits ops⟩
  · intro h
    subst h
    rfl
  · intro id hid
    subst hid
    refine ⟨?_, ?_⟩
    · intro habs
      have hlook : getStoreFromUserData (run bits Program.init ops).reg userData = none := by
        rcases habs with habs | habs
        · exact lookup_of_absent _ _ habs
        · rw [habs]; rfl
      simp [goGetMessage, hlook]
    · intro v hv hne
      obtain ⟨store, rfl, hlook⟩ := reachable_entry bits ops userData v hne hv
      refine ⟨store, rfl, ?_, ?_⟩
      · intro hcall
        simp [goGetMessage, hlook, hcall]
      · intro message hcall hm
        simp [goGetMessage, hlook, hcall, hm]

/-- Witness for the amended C5: on a 64-bit target, the example store registered under token 1 holds
"hello" under "m1", and the get-trampoline returns a copy of it. -/
theorem C5_goGetMessage_contract_witness :
    goGetMessage (run 64 Program.init
        [Op.new (some (SimpleStore [("m1", "hello")])) (fun _ => 7)]).reg (some "m1") 1
      = (Outcome.ret (some "hello"),
          [Event.getStoreFromUserData 1, Event.GetMessage (SimpleStore [("m1", "hello")]) "m1",
           Event.CString "hello"]) := by
  obtain ⟨store, hstore, _, h⟩ :=
    ((C5_goGetMessage_contract 64
      [Op.new (some (SimpleStore [("m1", "hello")])) (fun _ => 7)]
      (some "m1") 1).2.1 "m1" rfl).2 (some (SimpleStore [("m1", "hello")])) rfl (by decide)
  cases hstore
  exact h "hello" (by decide) (by decide)

/-- C9 fails: with a store whose methods panic registered under token 1, `goStoreMessage`
returns no status at all (in particular no nonzero status) and `goGetMessage` does not
return null: both end in the panic. -/
theorem C9_panic_escapes :
    getStoreFromUserData
        (run 64 Program.init [Op.new (some panickingStore) (fun _ => 7)]).reg 1
      = some panickingStore ∧
    (¬ ∃ status : Int, status ≠ 0 ∧
      (goStoreMessage (run 64 Program.init [Op.new (some panickingStore) (fun _ => 7)]).reg
        (some "m1") (some "hello") 1).1 = Outcome.ret status) ∧
    (goGetMessage (run 64 Program.init [Op.new (some panickingStore) (fun _ => 7)]).reg
        (some "m1") 1).1 ≠ Outcome.ret none := by
  refine ⟨rfl, ?_, ?_⟩
  · rintro ⟨status, _, h⟩
    exact Outcome.noConfusion h
  · intro h
    exact Outcome.noConfusion h

/-- C9 as amended: for a store that the token resolves to (`getStoreFromUserData` returns
it, so it is the store registered under that non-null token) and non-null arguments, each
trampoline ends in a panic exactly when the store method it calls panics; nothing in the
trampoline catches it. -/
theorem C9_panic_propagates (r : Registry) (userData : Nat) (store : Store)
    (id message : String) (h : getStoreFromUserData r userData = some store) :
    (userData ≠ 0 ∧ r.storeRegistry userData = some (some store)) ∧
    ((goStoreMessage r (some id) (some message) userData).1
        = Outcome.fault ↔ store.StoreMessage id message = Outcome.fault) ∧
    ((goGetMessage r (some id) userData).1
        = Outcome.fault ↔ store.GetMessage id = Outcome.fault) := by
  refine ⟨?_, ?_, ?_⟩
  · by_cases h0 : userData = 0
    · rw [h0, lookup_null] at h
      cases h
    · refine ⟨h0, ?_⟩
      simp only [getStoreFromUserData, h0, if_false, mapIndex] at h
      cases hv : r.storeRegistry userData with
      | none => rw [hv] at h; cases h
      | some v => rw [hv] at h; simp only at h; rw [h]
  · simp only [goStoreMessage, h]
    cases hcall : store.StoreMessage id message with
    | fault => simp
    | ret b => cases b <;> simp
  · simp only [goGetMessage, h]
    cases hcall : store.GetMessage id with
    | fault => simp
    | ret m => by_cases hm : m = "" <;> simp [hm]

/-- Witness for the amended C9: on a 64-bit target, the panicking store under token 1. -/
theorem C9_panic_propagates_witness :
    getStoreFromUserData
        (run 64 Program.init [Op.new (some panickingStore) (fun _ => 7)]).reg 1
      = some panickingStore ∧
    (goStoreMessage (run 64 Program.init [Op.new (some panickingStore) (fun _ => 7)]).reg
      (some "m1") (some "hello") 1).1 = Outcome.fault :=
  ⟨rfl, (C9_panic_propagates
    (run 64 Program.init [Op.new (some panickingStore) (fun _ => 7)]).reg 1 panickingStore
    "m1" "hello" rfl).2.1.mpr rfl⟩

/-! ## Construction failure and the instance lifecycle -/

theorem mapDelete_mapSet_fresh (m : Nat → Option (Option Store)) (k : Nat) (v : Option Store)
    (h : m k = none) : mapDelete (mapSet m k v) k = m := by
  funext j
  by_cases hj : j = k
  · simp [mapDelete, hj, h]
  · simp [mapDelete, mapSet, hj]

theorem Close_closed (sdk : ChatSDK) : sdk.Close.sdk.closed = true := by
  simp only [ChatSDK.Close]
  split
  · assumption
  · split <;> rfl

theorem Close_of_closed (sdk : ChatSDK) (h : sdk.closed = true) :
    sdk.Close = { sdk := sdk, val := none, events := [] } := by
  simp [ChatSDK.Close, h]

theorem Close_val (sdk : ChatSDK) : sdk.Close.val = none := by
  simp only [ChatSDK.Close]
  split
  · rfl
  · split <;> rfl

theorem closeTimes_succ (n : Nat) (sdk : ChatSDK) :
    closeTimes (n + 1) sdk
      = ((closeTimes n sdk.Close.sdk).1, sdk.Close.val :: (closeTimes n sdk.Close.sdk).2.1,
          sdk.Close.events ++ (closeTimes n sdk.Close.sdk).2.2) := rfl

theorem closeTimes_of_closed (n : Nat) (sdk : ChatSDK) (h : sdk.closed = true) :
    closeTimes n sdk = (sdk, List.replicate n none, []) := by
  induction n with
  | zero => rfl
  | succ n ih => simp [closeTimes_succ, Close_of_closed sdk h, ih, List.replicate_succ]

theorem closeTimes_closed (n : Nat) (sdk : ChatSDK) : (closeTimes (n + 1) sdk).1.closed = true := by
  rw [closeTimes_succ, closeTimes_of_closed n _ (Close_closed sdk)]
  exact Close_closed sdk

/-- C6 fails once the counter wraps onto a live key: on a 64-bit target, after one
successful construction and `2 ^ 64 - 1` failing ones (`wrapOntoLiveKey (2 ^ 64 - 3)`) the
counter is 1 again while key 1 still holds the first instance's store; a construction that
now fails natively overwrites and then deletes key 1, so the `storeRegistry` map after the
call differs from the map before it. -/
theorem C6_wrapped_failure_drops_entry :
    (NewChatSDK 64 (run 64 Program.init (wrapOntoLiveKey (2 ^ 64 - 3))).reg
        (fun _ => 0) (some emptyStore)).sdk = none ∧
    (NewChatSDK 64 (run 64 Program.init (wrapOntoLiveKey (2 ^ 64 - 3))).reg
        (fun _ => 0) (some emptyStore)).reg.storeRegistry
      ≠ (run 64 Program.init (wrapOntoLiveKey (2 ^ 64 - 3))).reg.storeRegistry := by
  obtain ⟨hnext, hkey⟩ := live_key_after 64 (2 ^ 64 - 3) (by decide)
  constructor
  · rw [NewChatSDK_null 64 _ (fun _ => 0) emptyStore rfl]
  · apply fail_removes_live_key 64 _ emptyStore (some emptyStore)
    rw [hnext]
    exact hkey

/-- C6 as amended: in every registry state reached from the initial one in which fewer
than `2 ^ bits - 1` tokens have been issued (the `uintptr` counter of width `bits` has not
wrapped), a `NewChatSDK` call that fails (nil store, or the native constructor returns
null for the token) returns a nil instance and a non-nil error and leaves the
`storeRegistry` map as it was; with a nil store the registry variables are untouched and
nothing is called, and after a native failure the allocated token is not a key. -/
theorem C6_failed_construction (bits : Nat) (ops : List Op) (store : Option Store)
    (newChatSDKC : Nat → Nat)
    (hb : (issued (run bits Program.init ops).trace).length + 1 < 2 ^ bits)
    (hfail : store = none ∨
      newChatSDKC (register bits (run bits Program.init ops).reg store).1 = 0) :
    (NewChatSDK bits (run bits Program.init ops).reg newChatSDKC store).sdk = none ∧
    (NewChatSDK bits (run bits Program.init ops).reg newChatSDKC store).err ≠ none ∧
    (NewChatSDK bits (run bits Program.init ops).reg newChatSDKC store).reg.storeRegistry
      = (run bits Program.init ops).reg.storeRegistry ∧
    (store = none →
      (NewChatSDK bits (run bits Program.init ops).reg newChatSDKC store).reg
        = (run bits Program.init ops).reg ∧
      (NewChatSDK bits (run bits Program.init ops).reg newChatSDKC store).events = []) ∧
    (store ≠ none →
      (NewChatSDK bits (run bits Program.init ops).reg newChatSDKC store).reg.storeRegistry
        (register bits (run bits Program.init ops).reg store).1 = none) := by
  cases store with
  | none => simp [NewChatSDK_nil]
  | some s =>
    have hnull : newChatSDKC (run bits Program.init ops).reg.nextID = 0 := by
      rcases hfail with h | h
      · cases h
      · simpa [register] using h
    have hinv := reachable_inv bits ops
    have hn := inv_nextID bits _ hinv hb
    have hfresh : (run bits Program.init ops).reg.storeRegistry
        (run bits Program.init ops).reg.nextID = none := by
      cases h : (run bits Program.init ops).reg.storeRegistry
          (run bits Program.init ops).reg.nextID with
      | none => rfl
      | some v =>
        have := ((hinv.2.2 hb).1 _ v h).2
        omega
    rw [NewChatSDK_null _ _ _ s hnull]
    refine ⟨rfl, by simp, ?_, by simp, ?_⟩
    · simp only [unregister, register]
      exact mapDelete_mapSet_fresh _ _ _ hfresh
    · intro _
      simp [unregister, register, mapDelete]

/-- Witness for the amended C6: on a 64-bit target, a second construction whose native
constructor returns null, after a first successful one. -/
theorem C6_failed_construction_witness :
    (issued (run 64 Program.init [okOp]).trace).length + 1 < 2 ^ 64 ∧
    (NewChatSDK 64 (run 64 Program.init [okOp]).reg (fun _ => 0) (some emptyStore)).sdk
      = none ∧
    (NewChatSDK 64 (run 64 Program.init [okOp]).reg (fun _ => 0) (some emptyStore)).err
      ≠ none ∧
    (NewChatSDK 64 (run 64 Program.init [okOp]).reg
        (fun _ => 0) (some emptyStore)).reg.storeRegistry
      = (run 64 Program.init [okOp]).reg.storeRegistry :=
  have h := C6_failed_construction 64 [okOp] (some emptyStore) (fun _ => 0) (by decide)
    (Or.inr rfl)
  ⟨by decide, h.1, h.2.1, h.2.2.1⟩

/-- C7: on an instance on which `Close` has been called (once or more), `SendMessage`
returns the closed-instance error and `GetMessage` returns the empty string with the same
error (not the errorless not-found result); neither makes any outside call, in particular
no native one, and neither changes the instance. -/
theorem C7_closed_instance_rejects (native : Native) (sdk : ChatSDK) (n : Nat)
    (id message : String) :
    ChatSDK.SendMessage native (closeTimes (n + 1) sdk).1 id message
      = { sdk := (closeTimes (n + 1) sdk).1, val := some "ChatSDK instance is closed",
          events := [] } ∧
    ChatSDK.GetMessage native (closeTimes (n + 1) sdk).1 id
      = { sdk := (closeTimes (n + 1) sdk).1, val := ("", some "ChatSDK instance is closed"),
          events := [] } := by
  have h := closeTimes_closed n sdk
  constructor
  · simp [ChatSDK.SendMessage, h]
  · simp [ChatSDK.GetMessage, h]

/-- C8: for an instance returned by `NewChatSDK`, every `Close` returns no error; a second
`Close` changes nothing and calls nothing; over any `n ≥ 1` consecutive `Close` calls the
native destructor is called exactly once and the instance ends as the first `Close` left
it, with a null native handle and `closed` set; and at program level `Close` leaves the
registry alone, a repeated `Close` leaving the whole program state unchanged. -/
theorem C8_Close_idempotent (bits : Nat) (r : Registry) (newChatSDKC : Nat → Nat)
    (store : Option Store) (sdk : ChatSDK)
    (h : (NewChatSDK bits r newChatSDKC store).sdk = some sdk) :
    (∀ n, (closeTimes n sdk).2.1 = List.replicate n none) ∧
    sdk.Close.sdk.Close = { sdk := sdk.Close.sdk, val := none, events := [] } ∧
    (∀ n, 1 ≤ n →
      countFree (closeTimes n sdk).2.2 = 1 ∧ (closeTimes n sdk).1 = sdk.Close.sdk ∧
      (closeTimes n sdk).1.cSDK = 0 ∧ (closeTimes n sdk).1.closed = true) ∧
    (∀ (p : Program) (i : Nat),
      (step bits p (Op.close i)).reg = p.reg ∧
      step bits (step bits p (Op.close i)) (Op.close i) = step bits p (Op.close i)) := by
  have hsdk : sdk.closed = false ∧ sdk.cSDK ≠ 0 := by
    cases store with
    | none => simp [NewChatSDK_nil] at h
    | some s =>
      by_cases hf : newChatSDKC r.nextID = 0
      · simp [NewChatSDK_null bits r newChatSDKC s hf] at h
      · simp only [NewChatSDK_ok bits r newChatSDKC s hf, Option.some.injEq] at h
        subst h
        exact ⟨rfl, hf⟩
  obtain ⟨hopen, hhandle⟩ := hsdk
  have hevents : sdk.Close.events = [Event.freeChatSDKC sdk.cSDK, Event.SetFinalizer false] := by
    simp [ChatSDK.Close, hopen, hhandle]
  have hnull : sdk.Close.sdk.cSDK = 0 := by
    simp [ChatSDK.Close, hopen, hhandle]
  refine ⟨?_, Close_of_closed _ (Close_closed sdk), ?_, ?_⟩
  · intro n
    cases n with
    | zero => rfl
    | succ n =>
      rw [closeTimes_succ, closeTimes_of_closed n _ (Close_closed sdk)]
      simp [Close_val, List.replicate_succ]
  · intro n hn
    obtain ⟨m, rfl⟩ : ∃ m, n = m + 1 := ⟨n - 1, by omega⟩
    rw [closeTimes_succ, closeTimes_of_closed m _ (Close_closed sdk)]
    refine ⟨?_, rfl, ?_, Close_closed sdk⟩
    · simp [hevents, countFree]
    · exact hnull
  · intro p i
    refine ⟨step_reg_close bits p i, ?_⟩
    cases hget : p.heap.get? i with
    | none =>
      have h1 : step bits p (Op.close i) = p := by simp only [step, hget]
      rw [h1, h1]
    | some s0 =>
      have hi : i < p.heap.length := by
        rcases Nat.lt_or_ge i p.heap.length with hlt | hge
        · exact hlt
        · rw [List.get?_eq_none.mpr hge] at hget
          cases hget
      have h1 : step bits p (Op.close i)
          = { reg := p.reg, heap := p.heap.set i s0.Close.sdk,
              trace := p.trace ++ s0.Close.events } := by
        simp only [step, hget]
      have h2 : (p.heap.set i s0.Close.sdk).get? i = some s0.Close.sdk := by
        simp [List.get?_eq_getElem?, List.getElem?_set, hi]
      rw [h1]
      simp only [step, h2, Close_of_closed _ (Close_closed s0), List.append_nil,
        List.set_set]

/-- Witness for C8: an instance created from the initial registry, closed three times. -/
theorem C8_Close_idempotent_witness :
    countFree (closeTimes 3
      { cSDK := 7, store := some (SimpleStore []), closed := false }).2.2 = 1 :=
  ((C8_Close_idempotent 64 Registry.init (fun _ => 7) (some (SimpleStore []))
    { cSDK := 7, store := some (SimpleStore []), closed := false } rfl).2.2.1 3
      (by decide)).1

end chatsdk
